import Mathlib

/-!
Verification of the GitHub Obsidian MCP server (`src/server.py`).

The Python handlers are shallowly embedded as Lean functions.  Remote HTTP
outcomes are an explicit input (`RemoteOutcome`), Python exceptions are
modelled with `Except String` (the string is the exception text; texts of
builtin Python exceptions are abbreviated, which no property depends on),
and each handler additionally returns the list of outbound HTTP requests it
issued, in order, so that properties about the requests it sends can be
stated.  JSON numbers are modelled as integers (no handler depends on
fractional values).
-/

namespace ObsidianMCP

/-- JSON values as decoded by `response.json()`. -/
inductive Json where
  | null
  | bool (b : Bool)
  | num (n : Int)
  | str (s : String)
  | arr (items : List Json)
  | obj (fields : List (String × Json))

/-- Field lookup on a JSON object; `none` on non-objects or missing keys. -/
def jlookup : Json → String → Option Json
  | .obj fs, k => fs.lookup k
  | _, _ => none

/-- Python truthiness of a JSON-decoded value (`if x:`). -/
def jsonTruthy : Json → Bool
  | .null => false
  | .bool b => b
  | .num n => n != 0
  | .str s => s != ""
  | .arr xs => !xs.isEmpty
  | .obj fs => !fs.isEmpty

/-- Python `x == "t"` for a JSON-decoded `x` and a string literal. -/
def jsonEqStr : Json → String → Bool
  | .str s, t => s == t
  | _, _ => false

/-- Python `x == 0` for a JSON-decoded `x` (note `False == 0` is true). -/
def pyEqZero : Json → Bool
  | .num n => n == 0
  | .bool b => !b
  | _ => false

/-- Python `str()` of a JSON-decoded value, as interpolated by f-strings.
Scalars are rendered faithfully; the `repr`-based rendering of lists and
dicts is not modelled (no claim depends on it). -/
def pyStr : Json → String
  | .null => "None"
  | .bool true => "True"
  | .bool false => "False"
  | .num n => toString n
  | .str s => s
  | .arr _ => "<list>"
  | .obj _ => "<dict>"

/-- Python `x[k]` for a string key: the field of a dict, `KeyError` if the
key is absent, `TypeError` on non-dict values. -/
def pyGetItem (j : Json) (k : String) : Except String Json :=
  match j with
  | .obj fs =>
    match fs.lookup k with
    | some v => .ok v
    | none => .error ("KeyError: " ++ k)
  | _ => .error ("TypeError: value is not subscriptable with key " ++ k)

/-- Python `x.get(k)` / `x.get(k, default)` resolved to an `Option`:
`AttributeError` when `x` is not a dict. -/
def pyGet (j : Json) (k : String) : Except String (Option Json) :=
  match j with
  | .obj fs => .ok (fs.lookup k)
  | _ => .error "AttributeError: value has no attribute get"

/-- Coerce a JSON value to the string it must be for `str`-only operations
(`endswith`, slicing, `strip`, `split`); raises otherwise. -/
def asPyStr : Json → Except String String
  | .str s => .ok s
  | _ => .error "TypeError: expected a string value"

/-- Coerce a JSON value to a list for iteration/slicing; raises otherwise.
(Python would accept a few more iterables here and fail later; collapsing
that to an immediate error changes only the exception text.) -/
def asArr : Json → Except String (List Json)
  | .arr xs => .ok xs
  | _ => .error "TypeError: value is not iterable"

/-- Python `k in x` for a dict `x` (only reached when `x` is a dict). -/
def pyHasKey : Json → String → Bool
  | .obj fs, k => (fs.lookup k).isSome
  | _, _ => false

/-- An HTTP response: status code, raw body text, and the body as JSON when
it parses (`response.json()` raises otherwise). -/
structure Response where
  status : Nat
  text : String
  json : Option Json

/-- The remote side of one HTTP exchange: either a response arrived or the
transport failed (DNS, reset, timeout — `requests.RequestException`). -/
inductive RemoteOutcome where
  | resp (r : Response)
  | netError (msg : String)

/-- An outbound HTTP request as issued by the handlers: method, URL, query
parameters and optional JSON body. -/
structure Request where
  method : String
  url : String
  params : List (String × String)
  jsonBody : Option Json

/-- `response.json()`: the parsed body, raising when the body is not JSON. -/
def pyJson (r : Response) : Except String Json :=
  match r.json with
  | some j => .ok j
  | none => .error "Expecting value: line 1 column 1 (char 0)"

/-- `response.raise_for_status()`: raises `HTTPError` for 4xx/5xx. -/
def raise_for_status (r : Response) : Except String Unit :=
  if 400 ≤ r.status ∧ r.status < 600 then
    .error (toString r.status ++ " Error for url")
  else .ok ()

/-- Python `s.lower()` restricted to ASCII case-mapping (Unicode
case-mapping is not modelled; the rate-limit indicator is ASCII). -/
def pyLower (s : String) : String := ⟨s.data.map Char.toLower⟩

/-- The rate-limit indicator test from `GitHubClient.make_request`:
`'rate limit' in response.text.lower()`. -/
def hasRateLimitText (r : Response) : Prop :=
  "rate limit".data <:+: (pyLower r.text).data

instance (r : Response) : Decidable (hasRateLimitText r) :=
  List.decidableInfix _ _

/-- The exception text raised for the distinguished rate-limit failure. -/
def rateLimitMsg : String := "GitHub API rate limit exceeded"

/-- `GitHubClient.make_request`: passes responses through, except that a 403
whose body mentions the rate limit raises the distinguished rate-limit
exception; transport failures are re-raised with an `API request failed`
wrapper. -/
def make_request (o : RemoteOutcome) : Except String Response :=
  match o with
  | .netError e => .error ("API request failed: " ++ e)
  | .resp r =>
    if r.status = 403 ∧ hasRateLimitText r then .error rateLimitMsg
    else .ok r

/-! ### UTF-8 (`str.encode("utf-8")` / `bytes.decode("utf-8")`)
Bytes are modelled as `Nat` values below 256. -/

/-- Standard UTF-8 encoding of one Unicode scalar value. -/
def utf8EncodeChar (c : Nat) : List Nat :=
  if c < 0x80 then [c]
  else if c < 0x800 then [0xC0 + c / 64, 0x80 + c % 64]
  else if c < 0x10000 then
    [0xE0 + c / 4096, 0x80 + (c / 64) % 64, 0x80 + c % 64]
  else
    [0xF0 + c / 262144, 0x80 + (c / 4096) % 64, 0x80 + (c / 64) % 64, 0x80 + c % 64]

/-- `content.encode("utf-8")` over the string's characters. -/
def utf8EncodeList : List Char → List Nat
  | [] => []
  | c :: cs => utf8EncodeChar c.toNat ++ utf8EncodeList cs

/-- `content.encode("utf-8")`. -/
def utf8Encode (s : String) : List Nat :=
  utf8EncodeList s.data

/-- Strict UTF-8 decoding (as Python's `bytes.decode("utf-8")`), run as a
byte-at-a-time automaton.  The state carries the accumulated scalar bits,
the number of continuation bytes still expected, and the smallest scalar
value the sequence length admits (the overlong bound).  Stray or missing
continuation bytes, overlong forms, surrogates and out-of-range scalar
values are rejected, exactly the strict UTF-8 acceptance set. -/
def utf8Run : Option (Nat × Nat × Nat) → List Nat → Option (List Char)
  | none, [] => some []
  | some _, [] => none
  | none, b :: rest =>
    if b < 0x80 then (utf8Run none rest).map (Char.ofNat b :: ·)
    else if b < 0xC2 then none
    else if b < 0xE0 then utf8Run (some (b - 0xC0, 1, 0x80)) rest
    else if b < 0xF0 then utf8Run (some (b - 0xE0, 2, 0x800)) rest
    else if b < 0xF5 then utf8Run (some (b - 0xF0, 3, 0x10000)) rest
    else none
  | some (acc, need, lo), b :: rest =>
    if 0x80 ≤ b ∧ b < 0xC0 then
      if need = 1 then
        if lo ≤ acc * 64 + (b - 0x80) ∧ acc * 64 + (b - 0x80) < 0x110000 ∧
            ¬(0xD800 ≤ acc * 64 + (b - 0x80) ∧ acc * 64 + (b - 0x80) < 0xE000) then
          (utf8Run none rest).map (Char.ofNat (acc * 64 + (b - 0x80)) :: ·)
        else none
      else utf8Run (some (acc * 64 + (b - 0x80), need - 1, lo)) rest
    else none

/-- `bytes.decode("utf-8")` on a byte sequence, as a character list. -/
def utf8DecodeList (bs : List Nat) : Option (List Char) := utf8Run none bs

/-- `bytes.decode("utf-8")` producing a string. -/
def utf8DecodeStr (bs : List Nat) : Option String :=
  (utf8DecodeList bs).map fun cs => ⟨cs⟩

/-! ### Base64 (`base64.b64encode` / `base64.b64decode`) -/

/-- The standard base64 alphabet. -/
def b64Alphabet : List Char :=
  "ABCDEFGHIJKLMNOPQRSTUVWXYZabcdefghijklmnopqrstuvwxyz0123456789+/".data

/-- The character encoding a sextet. -/
def b64Char (n : Nat) : Char := b64Alphabet.getD n '?'

/-- The sextet encoded by an alphabet character, if any. -/
def b64Index (c : Char) : Option Nat := b64Alphabet.indexOf? c

/-- `base64.b64encode`, processing three input bytes into four characters,
padding the final partial group with `=`. -/
def b64EncodeChunks : List Nat → List Char
  | [] => []
  | [a] => [b64Char (a / 4), b64Char (a % 4 * 16), '=', '=']
  | [a, b] => [b64Char (a / 4), b64Char (a % 4 * 16 + b / 16), b64Char (b % 16 * 4), '=']
  | a :: b :: c :: rest =>
    b64Char (a / 4) :: b64Char (a % 4 * 16 + b / 16) ::
      b64Char (b % 16 * 4 + c / 64) :: b64Char (c % 64) :: b64EncodeChunks rest

/-- `base64.b64encode(...).decode("utf-8")`: the base64 text of a byte
sequence (the alphabet is ASCII, so the trailing decode is plain). -/
def b64encode (bs : List Nat) : String := ⟨b64EncodeChunks bs⟩

/-- Decoding of four-character groups; padding is accepted only at the very
end.  (As in Python's decoder, unused low bits in the final group are not
required to be zero; unlike binascii, input after a padded group is an
error rather than being silently dropped — no claim exercises that path.) -/
def b64DecodeChunks : List Char → Option (List Nat)
  | [] => some []
  | c1 :: c2 :: c3 :: c4 :: rest =>
    match b64Index c1, b64Index c2 with
    | some s1, some s2 =>
      if c3 = '=' then
        if c4 = '=' ∧ rest = [] then some [s1 * 4 + s2 / 16] else none
      else
        match b64Index c3 with
        | some s3 =>
          if c4 = '=' then
            if rest = [] then some [s1 * 4 + s2 / 16, s2 % 16 * 16 + s3 / 4] else none
          else
            match b64Index c4 with
            | some s4 =>
              (b64DecodeChunks rest).map
                (fun t => (s1 * 4 + s2 / 16) :: (s2 % 16 * 16 + s3 / 4) :: (s3 % 4 * 64 + s4) :: t)
            | none => none
        | none => none
    | _, _ => none
  | _ => none

/-- `base64.b64decode` (default validation): characters outside the
alphabet and `=` are discarded, then the remainder must be well-formed
four-character groups. -/
def b64decode (s : String) : Option (List Nat) :=
  b64DecodeChunks (s.data.filter fun c => c = '=' ∨ (b64Index c).isSome)

/-! ### Tool handlers -/

/-- `"\n".join(...)`. -/
def joinNL (xs : List String) : String := String.intercalate "\n" xs

/-- `https://api.github.com/repos/{owner}/{repo}/contents/{path}`. -/
def contentsUrl (owner repo path : String) : String :=
  "https://api.github.com/repos/" ++ owner ++ "/" ++ repo ++ "/contents/" ++ path

/-- Query parameters: `{"ref": ref}` when `ref` is truthy, else empty. -/
def refParams (ref : String) : List (String × String) :=
  if ref ≠ "" then [("ref", ref)] else []

/-- ASCII whitespace as stripped by Python `str.strip()` (further Unicode
space characters are not modelled; no claim involves them). -/
def pyIsSpace (c : Char) : Bool :=
  c = ' ' ∨ c = '\t' ∨ c = '\n' ∨ c = '\r' ∨ c.toNat = 11 ∨ c.toNat = 12

/-- Python `s.strip()`: drop whitespace from both ends. -/
def pyStrip (s : String) : String :=
  ⟨((s.data.dropWhile pyIsSpace).reverse.dropWhile pyIsSpace).reverse⟩

/-- Python `s.split('\n')[0]`: the characters before the first newline. -/
def pyFirstLine (s : String) : String :=
  ⟨s.data.takeWhile (· ≠ '\n')⟩

/-- Python `s.endswith(pat)`: a code-point suffix test (equivalent to
`String.endsWith`, phrased on the character lists so it evaluates by
kernel reduction). -/
def pyEndsWith (s pat : String) : Bool := pat.data.isSuffixOf s.data

/-- Python's `sorted` on a list of strings (code-point order).  On strings
equal elements are indistinguishable, so any correct sort yields the same
list; insertion sort is used because it evaluates by kernel reduction. -/
def pySorted (xs : List String) : List String :=
  List.insertionSort (fun a b => a.data ≤ b.data) xs

/-- The directory branch of `get_file_contents`: split entries into
decorated directory and file lines, in response order (no sorting and no
`.md` classification in this handler). -/
def gfcDirLoop : List Json → List String → List String →
    Except String (List String × List String)
  | [], dirs, files => .ok (dirs, files)
  | item :: rest, dirs, files => do
    let ty ← pyGetItem item "type"
    if jsonEqStr ty "dir" then
      let n ← pyGetItem item "name"
      gfcDirLoop rest (dirs ++ ["📁 " ++ pyStr n ++ "/"]) files
    else
      let n ← pyGetItem item "name"
      gfcDirLoop rest dirs (files ++ ["📄 " ++ pyStr n])

/-- Body of `get_file_contents` inside its `try`. -/
def get_file_contents_core (owner repo path : String) (o : RemoteOutcome) :
    Except String String := do
  let response ← make_request o
  if response.status = 404 then
    pure ("❌ File '" ++ path ++ "' not found in " ++ owner ++ "/" ++ repo)
  else do
    let _ ← raise_for_status response
    let data ← pyJson response
    match data with
    | .arr items => do
      let (dirs, files) ← gfcDirLoop items [] []
      let r1 := "📂 Contents of /" ++ path ++ ":\n\n"
      let r2 := if !dirs.isEmpty then r1 ++ "**Directories:**\n" ++ joinNL dirs ++ "\n\n" else r1
      let r3 := if !files.isEmpty then r2 ++ "**Files:**\n" ++ joinNL files else r2
      pure r3
    | _ => do
      let ty ← pyGet data "type"
      if (match ty with | some v => jsonEqStr v "file" | none => false) then
        let decoded : Except String String := do
          let cv ← pyGetItem data "content"
          let cs ← asPyStr cv
          let bytes ←
            match b64decode cs with
            | some bs => Except.ok bs
            | none => Except.error "Invalid base64-encoded string"
          match utf8DecodeStr bytes with
          | some s => Except.ok s
          | none => Except.error "utf-8 codec cannot decode"
        match decoded with
        | .ok content => pure ("📄 **" ++ path ++ "**\n\n" ++ content)
        | .error e => pure ("❌ Error decoding file content: " ++ e)
      else pure ("❌ Unknown content type for " ++ path)

/-- The `get_file_contents` tool: result text and issued requests. -/
def get_file_contents (owner repo path ref : String) (o : RemoteOutcome) :
    String × List Request :=
  (match get_file_contents_core owner repo path o with
   | .ok s => s
   | .error e => "❌ Error reading file: " ++ e,
   [⟨"GET", contentsUrl owner repo path, refParams ref, none⟩])

/-- URL used by `list_directory` (no trailing slash for the root). -/
def listDirUrl (owner repo path : String) : String :=
  if path ≠ "" then contentsUrl owner repo path
  else "https://api.github.com/repos/" ++ owner ++ "/" ++ repo ++ "/contents"

/-- The entry loop of `list_directory`: directories are decorated
`📁 name/`; files ending in `.md` are decorated `📝 name`, other files
`📄 name`, in response order. -/
def listDirLoop : List Json → List String → List String →
    Except String (List String × List String)
  | [], dirs, files => .ok (dirs, files)
  | item :: rest, dirs, files => do
    let ty ← pyGetItem item "type"
    if jsonEqStr ty "dir" then
      let n ← pyGetItem item "name"
      listDirLoop rest (dirs ++ ["📁 " ++ pyStr n ++ "/"]) files
    else do
      let n ← pyGetItem item "name"
      let ns ← asPyStr n
      if pyEndsWith ns ".md" then listDirLoop rest dirs (files ++ ["📝 " ++ ns])
      else listDirLoop rest dirs (files ++ ["📄 " ++ ns])

/-- Rendering of a successful `list_directory`: header plus each non-empty
sublist sorted (note: sorted on the decorated strings). -/
def listDirRender (path : String) (dirs files : List String) : String :=
  let location := if path ≠ "" then "/" ++ path else "/root"
  let r1 := "📂 **Contents of " ++ location ++ ":**\n\n"
  let r2 := if !dirs.isEmpty
    then r1 ++ "**📁 Directories:**\n" ++ joinNL (pySorted dirs) ++ "\n\n" else r1
  if !files.isEmpty then r2 ++ "**📄 Files:**\n" ++ joinNL (pySorted files) else r2

/-- Body of `list_directory` inside its `try`. -/
def list_directory_core (owner repo path : String) (o : RemoteOutcome) :
    Except String String := do
  let response ← make_request o
  if response.status = 404 then
    pure ("❌ Directory '" ++ path ++ "' not found in " ++ owner ++ "/" ++ repo)
  else do
    let _ ← raise_for_status response
    let data ← pyJson response
    match data with
    | .arr items => do
      let (dirs, files) ← listDirLoop items [] []
      pure (listDirRender path dirs files)
    | _ => pure ("❌ '" ++ path ++ "' is not a directory")

/-- The `list_directory` tool: result text and issued requests. -/
def list_directory (owner repo path ref : String) (o : RemoteOutcome) :
    String × List Request :=
  (match list_directory_core owner repo path o with
   | .ok s => s
   | .error e => "❌ Error listing directory: " ++ e,
   [⟨"GET", listDirUrl owner repo path, refParams ref, none⟩])

/-- Per-match inner loop of `search_code` (over `item['text_matches'][:1]`):
a non-empty stripped fragment contributes the path line and a quoted block;
an empty one contributes nothing. -/
def searchMatchLoop (filePath : String) : List Json → Except String (List String)
  | [] => .ok []
  | m :: rest => do
    let fragJ ←
      match m with
      | .obj fs => .ok ((fs.lookup "fragment").getD (.str ""))
      | _ => .error "AttributeError: value has no attribute get"
    let fragS ← asPyStr fragJ
    let fragment := pyStrip fragS
    let tail ← searchMatchLoop filePath rest
    if fragment ≠ "" then
      pure (("📄 **" ++ filePath ++ "**") ::
        ("   ```\n   " ++ fragment ++ "\n   ```\n") :: tail)
    else pure tail

/-- Per-item loop of `search_code` (over `data['items'][:10]`). -/
def searchLoop : List Json → Except String (List String)
  | [] => .ok []
  | item :: rest => do
    let fp ← pyGetItem item "path"
    let filePath := pyStr fp
    if pyHasKey item "text_matches" then do
      let tms ← pyGetItem item "text_matches"
      let tmList ← asArr tms
      let mine ← searchMatchLoop filePath (tmList.take 1)
      let tail ← searchLoop rest
      pure (mine ++ tail)
    else do
      let tail ← searchLoop rest
      pure (("📄 **" ++ filePath ++ "**\n") :: tail)

/-- Body of `search_code` inside its `try`. -/
def search_code_core (query : String) (o : RemoteOutcome) : Except String String := do
  let response ← make_request o
  let _ ← raise_for_status response
  let data ← pyJson response
  let tc ← pyGetItem data "total_count"
  if pyEqZero tc then
    pure ("🔍 No results found for '" ++ query ++ "'")
  else do
    let itemsJ ← pyGetItem data "items"
    let items ← asArr itemsJ
    let lines ← searchLoop (items.take 10)
    pure (joinNL (("🔍 **Found " ++ pyStr tc ++ " results for '" ++ query ++ "':**\n") :: lines))

/-- The `search_code` tool: result text and issued requests. -/
def search_code (owner repo query : String) (o : RemoteOutcome) :
    String × List Request :=
  (match search_code_core query o with
   | .ok s => s
   | .error e => "❌ Error searching: " ++ e,
   [⟨"GET", "https://api.github.com/search/code",
     [("q", query ++ " repo:" ++ owner ++ "/" ++ repo), ("per_page", "20")], none⟩])

/-- Truthiness of the pre-check result (`if sha:` on the value of
`existing_response.json().get('sha')`, where `None` is falsy). -/
def shaFound : Option Json → Bool
  | some v => jsonTruthy v
  | none => false

/-- Step 1 of `create_or_update_file`: a GET of the path with no query
parameters; only a 200 response is consulted for its `sha` field. -/
def upsert_precheck (o1 : RemoteOutcome) : Except String (Option Json) := do
  let r1 ← make_request o1
  if r1.status = 200 then do
    let j ← pyJson r1
    pyGet j "sha"
  else pure none

/-- The JSON body of the write request: commit message, base64 content and
branch, plus the pre-check `sha` when it was found truthy. -/
def upsert_put_body (content message branch : String) (shaOpt : Option Json) : Json :=
  .obj ([("message", .str message),
         ("content", .str (b64encode (utf8Encode content))),
         ("branch", .str branch)] ++
    (match shaOpt with
     | some v => if jsonTruthy v then [("sha", v)] else []
     | none => []))

/-- Step 2 of `create_or_update_file`: issue the PUT and format the
outcome; the `Created`/`Updated` label comes from the pre-check alone. -/
def upsert_write (path : String) (shaOpt : Option Json) (o2 : RemoteOutcome) :
    Except String String := do
  let response ← make_request o2
  let _ ← raise_for_status response
  let result ← pyJson response
  let commit ← pyGetItem result "commit"
  let cshaJ ← pyGetItem commit "sha"
  let csha ← asPyStr cshaJ
  let action := if shaFound shaOpt then "Updated" else "Created"
  pure ("✅ " ++ action ++ " file '" ++ path ++ "' successfully!\nCommit: " ++ csha.take 7)

/-- The `create_or_update_file` tool: result text and issued requests
(`o1` answers the existence pre-check, `o2` the write). -/
def create_or_update_file (owner repo path content message branch : String)
    (o1 o2 : RemoteOutcome) : String × List Request :=
  let getReq : Request := ⟨"GET", contentsUrl owner repo path, [], none⟩
  match upsert_precheck o1 with
  | .error e => ("❌ Error creating/updating file: " ++ e, [getReq])
  | .ok shaOpt =>
    let putReq : Request :=
      ⟨"PUT", contentsUrl owner repo path, [], some (upsert_put_body content message branch shaOpt)⟩
    (match upsert_write path shaOpt o2 with
     | .ok s => s
     | .error e => "❌ Error creating/updating file: " ++ e,
     [getReq, putReq])

/-- Body of `create_branch` inside its `try`. -/
def create_branch_core (branch sha : String) (o : RemoteOutcome) :
    Except String String := do
  let response ← make_request o
  let _ ← raise_for_status response
  let result ← pyJson response
  let refv ← pyGetItem result "ref"
  pure ("✅ Created branch '" ++ branch ++ "' successfully!\nBranch ref: " ++ pyStr refv ++
    "\nSHA: " ++ sha.take 7)

/-- The `create_branch` tool: result text and issued requests. -/
def create_branch (owner repo branch sha : String) (o : RemoteOutcome) :
    String × List Request :=
  (match create_branch_core branch sha o with
   | .ok s => s
   | .error e => "❌ Error creating branch: " ++ e,
   [⟨"POST", "https://api.github.com/repos/" ++ owner ++ "/" ++ repo ++ "/git/refs", [],
     some (.obj [("ref", .str ("refs/heads/" ++ branch)), ("sha", .str sha)])⟩])

/-- Per-commit rendering loop of `list_commits`. -/
def commitsLoop : List Json → Except String (List String)
  | [] => .ok []
  | commit :: rest => do
    let shaJ ← pyGetItem commit "sha"
    let shaS ← asPyStr shaJ
    let c ← pyGetItem commit "commit"
    let msgJ ← pyGetItem c "message"
    let msgS ← asPyStr msgJ
    let message := pyFirstLine msgS
    let authorJ ← pyGetItem c "author"
    let nameJ ← pyGetItem authorJ "name"
    let dateJ ← pyGetItem authorJ "date"
    let dateS ← asPyStr dateJ
    let tail ← commitsLoop rest
    pure (("🔸 **" ++ shaS.take 7 ++ "** - " ++ message) ::
      ("   👤 " ++ pyStr nameJ ++ " • 📅 " ++ dateS.take 10 ++ "\n") :: tail)

/-- Body of `list_commits` inside its `try`. -/
def list_commits_core (owner repo : String) (o : RemoteOutcome) :
    Except String String := do
  let response ← make_request o
  let _ ← raise_for_status response
  let commits ← pyJson response
  if !jsonTruthy commits then
    pure ("📜 No commits found for " ++ owner ++ "/" ++ repo)
  else do
    let cl ← asArr commits
    let lines ← commitsLoop cl
    pure (joinNL (("📜 **Recent commits for " ++ owner ++ "/" ++ repo ++ ":**\n") :: lines))

/-- The `list_commits` tool: result text and issued requests.  The
`per_page` parameter is sent as `min(per_page, 100)`. -/
def list_commits (owner repo sha path : String) (page per_page : Int)
    (o : RemoteOutcome) : String × List Request :=
  (match list_commits_core owner repo o with
   | .ok s => s
   | .error e => "❌ Error listing commits: " ++ e,
   [⟨"GET", "https://api.github.com/repos/" ++ owner ++ "/" ++ repo ++ "/commits",
     [("page", toString page), ("per_page", toString (min per_page 100))] ++
       (if sha ≠ "" then [("sha", sha)] else []) ++
       (if path ≠ "" then [("path", path)] else []), none⟩])

/-- The JSON body of the PR creation request: the `body` field is present
only when the `body` argument is truthy (Python `if body:`). -/
def pr_body_json (title head base : String) (draft : Bool) (body : String) : Json :=
  .obj ([("title", .str title), ("head", .str head), ("base", .str base),
         ("draft", .bool draft)] ++
    (if body ≠ "" then [("body", .str body)] else []))

/-- Body of `create_pull_request` inside its `try`. -/
def create_pull_request_core (title head base : String) (draft : Bool)
    (o : RemoteOutcome) : Except String String := do
  let response ← make_request o
  let _ ← raise_for_status response
  let result ← pyJson response
  let number ← pyGetItem result "number"
  let urlJ ← pyGetItem result "html_url"
  let prType := if draft then "Draft PR" else "PR"
  pure ("✅ Created " ++ prType ++ " #" ++ pyStr number ++ " successfully!\n📋 Title: " ++
    title ++ "\n🌿 " ++ head ++ " → " ++ base ++ "\n🔗 URL: " ++ pyStr urlJ)

/-- The `create_pull_request` tool: result text and issued requests. -/
def create_pull_request (owner repo title head base body : String) (draft : Bool)
    (o : RemoteOutcome) : String × List Request :=
  (match create_pull_request_core title head base draft o with
   | .ok s => s
   | .error e => "❌ Error creating PR: " ++ e,
   [⟨"POST", "https://api.github.com/repos/" ++ owner ++ "/" ++ repo ++ "/pulls", [],
     some (pr_body_json title head base draft body)⟩])

/-! ### Dispatch boundary -/

/-- A named tool invocation with its arguments, as resolved by the
dispatch boundary. -/
inductive ToolCall where
  | getFileContents (owner repo path ref : String)
  | listDirectory (owner repo path ref : String)
  | searchCode (owner repo query : String)
  | createOrUpdateFile (owner repo path content message branch : String)
  | createBranch (owner repo branch sha : String)
  | listCommits (owner repo sha path : String) (page per_page : Int)
  | createPullRequest (owner repo title head base body : String) (draft : Bool)

/-- Run the matching handler.  The result is an `Except`: an exception
escaping a handler would surface as `.error` at this boundary (`o1`
answers the handler's first HTTP call, `o2` a second call if made). -/
def dispatch (call : ToolCall) (o1 o2 : RemoteOutcome) :
    Except String (String × List Request) :=
  match call with
  | .getFileContents owner repo path ref => .ok (get_file_contents owner repo path ref o1)
  | .listDirectory owner repo path ref => .ok (list_directory owner repo path ref o1)
  | .searchCode owner repo query => .ok (search_code owner repo query o1)
  | .createOrUpdateFile owner repo path content message branch =>
    .ok (create_or_update_file owner repo path content message branch o1 o2)
  | .createBranch owner repo branch sha => .ok (create_branch owner repo branch sha o1)
  | .listCommits owner repo sha path page per_page =>
    .ok (list_commits owner repo sha path page per_page o1)
  | .createPullRequest owner repo title head base body draft =>
    .ok (create_pull_request owner repo title head base body draft o1)

/-! ### Lemmas: base64 -/

theorem b64Index_b64Char : ∀ n, n < 64 → b64Index (b64Char n) = some n := by decide

theorem b64Char_ne_pad : ∀ n, n < 64 → b64Char n ≠ '=' := by decide

theorem b64EncodeChunks_mem_keep (bs : List Nat) (hbs : ∀ b ∈ bs, b < 256) :
    ∀ ch ∈ b64EncodeChunks bs, ch = '=' ∨ (b64Index ch).isSome := by
  induction bs using b64EncodeChunks.induct with
  | case1 => intro ch h; simp [b64EncodeChunks] at h
  | case2 a =>
    have ha : a < 256 := hbs a (by simp)
    intro ch h
    simp only [b64EncodeChunks, List.mem_cons, List.not_mem_nil, or_false] at h
    rcases h with h | h | h | h
    · exact Or.inr (by rw [h, b64Index_b64Char _ (by omega)]; rfl)
    · exact Or.inr (by rw [h, b64Index_b64Char _ (by omega)]; rfl)
    · exact Or.inl h
    · exact Or.inl h
  | case3 a b =>
    have ha : a < 256 := hbs a (by simp)
    have hb : b < 256 := hbs b (by simp)
    intro ch h
    simp only [b64EncodeChunks, List.mem_cons, List.not_mem_nil, or_false] at h
    rcases h with h | h | h | h
    · exact Or.inr (by rw [h, b64Index_b64Char _ (by omega)]; rfl)
    · exact Or.inr (by rw [h, b64Index_b64Char _ (by omega)]; rfl)
    · exact Or.inr (by rw [h, b64Index_b64Char _ (by omega)]; rfl)
    · exact Or.inl h
  | case4 a b c rest ih =>
    have ha : a < 256 := hbs a (by simp)
    have hb : b < 256 := hbs b (by simp)
    have hc : c < 256 := hbs c (by simp)
    intro ch h
    simp only [b64EncodeChunks, List.mem_cons] at h
    rcases h with h | h | h | h | h
    · exact Or.inr (by rw [h, b64Index_b64Char _ (by omega)]; rfl)
    · exact Or.inr (by rw [h, b64Index_b64Char _ (by omega)]; rfl)
    · exact Or.inr (by rw [h, b64Index_b64Char _ (by omega)]; rfl)
    · exact Or.inr (by rw [h, b64Index_b64Char _ (by omega)]; rfl)
    · exact ih (fun x hx => hbs x (by simp [hx])) ch h

theorem b64DecodeChunks_encodeChunks (bs : List Nat) (hbs : ∀ b ∈ bs, b < 256) :
    b64DecodeChunks (b64EncodeChunks bs) = some bs := by
  induction bs using b64EncodeChunks.induct with
  | case1 => rfl
  | case2 a =>
    have ha : a < 256 := hbs a (by simp)
    simp only [b64EncodeChunks, b64DecodeChunks,
      b64Index_b64Char _ (show a / 4 < 64 by omega),
      b64Index_b64Char _ (show a % 4 * 16 < 64 by omega)]
    simp only [if_true, and_self, reduceIte, Option.some.injEq, List.cons.injEq, and_true]
    omega
  | case3 a b =>
    have ha : a < 256 := hbs a (by simp)
    have hb : b < 256 := hbs b (by simp)
    simp only [b64EncodeChunks, b64DecodeChunks,
      b64Index_b64Char _ (show a / 4 < 64 by omega),
      b64Index_b64Char _ (show a % 4 * 16 + b / 16 < 64 by omega),
      b64Index_b64Char _ (show b % 16 * 4 < 64 by omega)]
    rw [if_neg (b64Char_ne_pad _ (by omega))]
    simp only [if_true, and_self, reduceIte, Option.some.injEq, List.cons.injEq, and_true]
    omega
  | case4 a b c rest ih =>
    have ha : a < 256 := hbs a (by simp)
    have hb : b < 256 := hbs b (by simp)
    have hc : c < 256 := hbs c (by simp)
    have ihr := ih (fun x hx => hbs x (by simp [hx]))
    simp only [b64EncodeChunks, b64DecodeChunks,
      b64Index_b64Char _ (show a / 4 < 64 by omega),
      b64Index_b64Char _ (show a % 4 * 16 + b / 16 < 64 by omega),
      b64Index_b64Char _ (show b % 16 * 4 + c / 64 < 64 by omega),
      b64Index_b64Char _ (show c % 64 < 64 by omega)]
    rw [if_neg (b64Char_ne_pad _ (by omega)), if_neg (b64Char_ne_pad _ (by omega)), ihr]
    simp only [Option.map_some', Option.some.injEq, List.cons.injEq, and_true]
    refine ⟨by omega, by omega, by omega⟩

theorem b64decode_b64encode (bs : List Nat) (hbs : ∀ b ∈ bs, b < 256) :
    b64decode (b64encode bs) = some bs := by
  have hfix : (b64encode bs).data.filter (fun c => decide (c = '=' ∨ (b64Index c).isSome))
      = b64EncodeChunks bs := by
    show (b64EncodeChunks bs).filter _ = b64EncodeChunks bs
    rw [List.filter_eq_self]
    intro ch hch
    rw [decide_eq_true_eq]
    exact b64EncodeChunks_mem_keep bs hbs ch hch
  show b64DecodeChunks ((b64encode bs).data.filter _) = some bs
  rw [hfix]
  exact b64DecodeChunks_encodeChunks bs hbs

/-! ### Lemmas: UTF-8 -/

theorem char_toNat_valid (c : Char) :
    c.toNat < 0xD800 ∨ (0xE000 ≤ c.toNat ∧ c.toNat < 0x110000) := by
  have h := c.valid
  simp only [UInt32.isValidChar, Nat.isValidChar] at h
  have he : c.toNat = c.val.toNat := rfl
  rcases h with h | ⟨h1, h2⟩
  · exact Or.inl (by omega)
  · exact Or.inr ⟨by omega, by omega⟩

theorem utf8EncodeChar_lt_256 (n : Nat) (hn : n < 0x110000) :
    ∀ b ∈ utf8EncodeChar n, b < 256 := by
  intro b hb
  unfold utf8EncodeChar at hb
  split at hb
  · simp at hb; omega
  · split at hb
    · simp at hb
      rcases hb with hb | hb <;> omega
    · split at hb
      · simp at hb
        rcases hb with hb | hb | hb <;> omega
      · simp at hb
        rcases hb with hb | hb | hb | hb <;> omega

theorem utf8EncodeList_lt_256 (cs : List Char) : ∀ b ∈ utf8EncodeList cs, b < 256 := by
  induction cs with
  | nil => intro b hb; simp [utf8EncodeList] at hb
  | cons c cs ih =>
    intro b hb
    simp only [utf8EncodeList, List.mem_append] at hb
    rcases hb with hb | hb
    · have hv := char_toNat_valid c
      exact utf8EncodeChar_lt_256 c.toNat (by omega) b hb
    · exact ih b hb

theorem utf8Run_encodeChar (c : Char) (rest : List Nat) :
    utf8Run none (utf8EncodeChar c.toNat ++ rest) =
      (utf8Run none rest).map (c :: ·) := by
  have hv := char_toNat_valid c
  by_cases h1 : c.toNat < 0x80
  · rw [show utf8EncodeChar c.toNat = [c.toNat] from by unfold utf8EncodeChar; rw [if_pos h1]]
    rw [List.cons_append, List.nil_append, utf8Run, if_pos h1, Char.ofNat_toNat]
  · by_cases h2 : c.toNat < 0x800
    · rw [show utf8EncodeChar c.toNat = [0xC0 + c.toNat / 64, 0x80 + c.toNat % 64] from by
        unfold utf8EncodeChar; rw [if_neg h1, if_pos h2]]
      simp only [List.cons_append, List.nil_append]
      rw [utf8Run, if_neg (by omega), if_neg (by omega), if_pos (by omega)]
      rw [utf8Run, if_pos (by omega), if_pos rfl, if_pos (by omega)]
      have he : (0xC0 + c.toNat / 64 - 0xC0) * 64 + (0x80 + c.toNat % 64 - 0x80) = c.toNat := by
        omega
      rw [he, Char.ofNat_toNat]
    · by_cases h3 : c.toNat < 0x10000
      · rw [show utf8EncodeChar c.toNat =
            [0xE0 + c.toNat / 4096, 0x80 + c.toNat / 64 % 64, 0x80 + c.toNat % 64] from by
          unfold utf8EncodeChar; rw [if_neg h1, if_neg h2, if_pos h3]]
        simp only [List.cons_append, List.nil_append]
        rw [utf8Run, if_neg (by omega), if_neg (by omega), if_neg (by omega), if_pos (by omega)]
        rw [utf8Run, if_pos (by omega), if_neg (by omega)]
        rw [utf8Run, if_pos (by omega), if_pos rfl, if_pos (by omega)]
        have he : ((0xE0 + c.toNat / 4096 - 0xE0) * 64 + (0x80 + c.toNat / 64 % 64 - 0x80)) * 64 +
            (0x80 + c.toNat % 64 - 0x80) = c.toNat := by omega
        rw [he, Char.ofNat_toNat]
      · rw [show utf8EncodeChar c.toNat =
            [0xF0 + c.toNat / 262144, 0x80 + c.toNat / 4096 % 64, 0x80 + c.toNat / 64 % 64,
             0x80 + c.toNat % 64] from by
          unfold utf8EncodeChar; rw [if_neg h1, if_neg h2, if_neg h3]]
        simp only [List.cons_append, List.nil_append]
        rw [utf8Run, if_neg (by omega), if_neg (by omega), if_neg (by omega), if_neg (by omega),
          if_pos (by omega)]
        rw [utf8Run, if_pos (by omega), if_neg (by omega)]
        rw [utf8Run, if_pos (by omega), if_neg (by omega)]
        rw [utf8Run, if_pos (by omega), if_pos rfl, if_pos (by omega)]
        have he : (((0xF0 + c.toNat / 262144 - 0xF0) * 64 +
            (0x80 + c.toNat / 4096 % 64 - 0x80)) * 64 +
            (0x80 + c.toNat / 64 % 64 - 0x80)) * 64 + (0x80 + c.toNat % 64 - 0x80) = c.toNat := by
          omega
        rw [he, Char.ofNat_toNat]

theorem utf8DecodeList_encodeList (cs : List Char) :
    utf8DecodeList (utf8EncodeList cs) = some cs := by
  induction cs with
  | nil => rfl
  | cons c cs ih =>
    show utf8Run none (utf8EncodeChar c.toNat ++ utf8EncodeList cs) = _
    rw [utf8Run_encodeChar]
    show (utf8DecodeList (utf8EncodeList cs)).map _ = _
    rw [ih, Option.map_some']

theorem utf8DecodeStr_utf8Encode (s : String) : utf8DecodeStr (utf8Encode s) = some s := by
  show (utf8DecodeList (utf8EncodeList s.data)).map _ = _
  rw [utf8DecodeList_encodeList, Option.map_some']

/-- The composed codec of `create_or_update_file`: base64-decoding the
encoded content and UTF-8-decoding the bytes recovers the input string. -/
theorem content_roundtrip (s : String) :
    (b64decode (b64encode (utf8Encode s))).bind utf8DecodeStr = some s := by
  rw [b64decode_b64encode (utf8Encode s) (utf8EncodeList_lt_256 s.data), Option.some_bind,
    utf8DecodeStr_utf8Encode]

/-! ### Lemmas: `Except` plumbing -/

theorem ebind_ok {α β : Type} (a : α) (f : α → Except String β) :
    (Except.ok a : Except String α) >>= f = f a := rfl

theorem ebind_error {α β : Type} (e : String) (f : α → Except String β) :
    (Except.error e : Except String α) >>= f = Except.error e := rfl

theorem make_request_resp_ok (r : Response)
    (h : ¬(r.status = 403 ∧ hasRateLimitText r)) : make_request (.resp r) = .ok r := by
  unfold make_request
  simp only []
  rw [if_neg h]

theorem make_request_resp_ok_of_status (r : Response) (h : r.status ≠ 403) :
    make_request (.resp r) = .ok r :=
  make_request_resp_ok r (fun hc => h hc.1)

theorem raise_for_status_lt (r : Response) (h : r.status < 400) :
    raise_for_status r = .ok () := by
  unfold raise_for_status
  rw [if_neg (by omega)]

theorem pyJson_some (r : Response) (j : Json) (h : r.json = some j) : pyJson r = .ok j := by
  unfold pyJson
  rw [h]

theorem pyGetItem_obj (d : List (String × Json)) (k : String) (v : Json)
    (h : d.lookup k = some v) : pyGetItem (Json.obj d) k = .ok v := by
  unfold pyGetItem
  simp only []
  rw [h]

/-- Evaluation of `get_file_contents` through its single-file branch: the
result is the path-prefixed decoded text when both decoding steps succeed,
and a decoding-error text otherwise. -/
theorem get_file_contents_file_branch (owner repo path : String) (r : Response)
    (d : List (String × Json)) (hmk : ¬(r.status = 403 ∧ hasRateLimitText r))
    (h404 : r.status ≠ 404) (hst : r.status < 400)
    (hj : r.json = some (Json.obj d)) (htype : d.lookup "type" = some (Json.str "file"))
    (cs : String) (hcontent : d.lookup "content" = some (Json.str cs)) :
    get_file_contents_core owner repo path (.resp r) = Except.ok (
      match (b64decode cs).bind utf8DecodeStr with
      | some s => "📄 **" ++ path ++ "**\n\n" ++ s
      | none => "❌ Error decoding file content: " ++
          (if b64decode cs = none then "Invalid base64-encoded string"
           else "utf-8 codec cannot decode")) := by
  unfold get_file_contents_core
  rw [make_request_resp_ok r hmk, ebind_ok]
  simp only []
  rw [if_neg h404, raise_for_status_lt r hst, ebind_ok, pyJson_some r _ hj, ebind_ok]
  simp only []
  rw [show pyGet (Json.obj d) "type" = .ok (d.lookup "type") from rfl, ebind_ok, htype]
  simp only [jsonEqStr]
  rw [if_pos (show (("file" == "file") = true) from rfl)]
  rw [pyGetItem_obj d "content" _ hcontent, ebind_ok]
  simp only [asPyStr]
  rw [ebind_ok]
  cases hb : b64decode cs with
  | none =>
    simp only [ebind_error, Option.none_bind, if_true]
    rfl
  | some bs =>
    simp only [ebind_ok, Option.some_bind]
    cases hu : utf8DecodeStr bs with
    | none =>
      simp only [ebind_error]
      rfl
    | some s =>
      simp only [ebind_ok]
      rfl

/-! ### Claim theorems -/

/-- C2: for every tool operation and every remote outcome — responses of
any status and shape, rate-limit 403s, transport failures, malformed
payloads and decode failures — the handler produces a text result at the
dispatch boundary and no exception escapes (`dispatch` never yields
`.error`). -/
theorem dispatch_always_text (call : ToolCall) (o1 o2 : RemoteOutcome) :
    ∃ s tr, dispatch call o1 o2 = Except.ok (s, tr) := by
  cases call <;> exact ⟨_, _, rfl⟩

/-- C6: `list_commits` sends a `per_page` query value equal to the minimum
of the argument and 100 on its only request; in particular `per_page = 500`
is sent as `100`. -/
theorem list_commits_per_page_clamped (owner repo sha path : String)
    (page per_page : Int) (o : RemoteOutcome) :
    (list_commits owner repo sha path page per_page o).2.map
        (fun req => req.params.lookup "per_page") =
      [some (toString (min per_page 100))] ∧
    (list_commits owner repo sha path page 500 o).2.map
        (fun req => req.params.lookup "per_page") = [some "100"] := by
  exact ⟨rfl, rfl⟩

/-- C8: the pull-request creation request body contains a `body` field
exactly when the `body` argument is non-empty, carrying it verbatim; the
`title` field is always present. -/
theorem create_pull_request_body_spec (owner repo title head base body : String)
    (draft : Bool) (o : RemoteOutcome) :
    (create_pull_request owner repo title head base body draft o).2 =
      [⟨"POST", "https://api.github.com/repos/" ++ owner ++ "/" ++ repo ++ "/pulls", [],
        some (pr_body_json title head base draft body)⟩] ∧
    jlookup (pr_body_json title head base draft body) "body" =
      (if body = "" then none else some (.str body)) ∧
    jlookup (pr_body_json title head base draft body) "title" = some (.str title) := by
  refine ⟨rfl, ?_, rfl⟩
  by_cases h : body = ""
  · subst h; rfl
  · rw [if_neg h]
    unfold pr_body_json
    rw [if_pos h]
    rfl

/-- C9: `make_request` raises the distinguished rate-limit failure exactly
for responses with status 403 whose lower-cased body mentions the rate
limit; every other response is returned unclassified, and transport
failures are never classified as rate-limit failures. -/
theorem make_request_classification (r : Response) :
    (make_request (.resp r) = .error rateLimitMsg ↔
      r.status = 403 ∧ hasRateLimitText r) ∧
    (¬(r.status = 403 ∧ hasRateLimitText r) → make_request (.resp r) = .ok r) ∧
    (∀ e, make_request (.netError e) ≠ .error rateLimitMsg) := by
  refine ⟨?_, ?_, ?_⟩
  · constructor
    · intro h
      by_cases hc : r.status = 403 ∧ hasRateLimitText r
      · exact hc
      · rw [show make_request (.resp r) = .ok r from by
          unfold make_request; simp only []; rw [if_neg hc]] at h
        exact absurd h (by simp)
    · intro hc
      unfold make_request
      simp only []
      rw [if_pos hc]
  · intro hc
    unfold make_request
    simp only []
    rw [if_neg hc]
  · intro e h
    have h' : "API request failed: " ++ e = rateLimitMsg := by
      injection h
    have hd : (("API request failed: " ++ e).data).head? = (rateLimitMsg : String).data.head? := by
      rw [h']
    rw [String.data_append] at hd
    have h1 : ("API request failed: ".data ++ e.data).head? = some 'A' := rfl
    have h2 : (rateLimitMsg : String).data.head? = some 'G' := rfl
    rw [h1, h2] at hd
    exact absurd hd (by decide)

/-- Witness for C9 at concrete responses. -/
theorem make_request_classification_witness :
    make_request (.resp ⟨403, "Rate limit exceeded!", none⟩) = .error rateLimitMsg ∧
    make_request (.resp ⟨500, "rate limit", none⟩) = .ok ⟨500, "rate limit", none⟩ := by
  constructor
  · exact (make_request_classification ⟨403, "Rate limit exceeded!", none⟩).1.mpr
      ⟨rfl, by decide⟩
  · exact (make_request_classification ⟨500, "rate limit", none⟩).2.1 (by decide)

/-- C5: on a 404 response, `get_file_contents` and `list_directory` both
return normally with a not-found message containing the requested path, and
the single GET issued for the call is the only request (no retry). -/
theorem not_found_404_spec (owner repo path ref : String) (r : Response)
    (h404 : r.status = 404) :
    get_file_contents owner repo path ref (.resp r) =
      ("❌ File '" ++ path ++ "' not found in " ++ owner ++ "/" ++ repo,
       [⟨"GET", contentsUrl owner repo path, refParams ref, none⟩]) ∧
    path.data <:+: ("❌ File '" ++ path ++ "' not found in " ++ owner ++ "/" ++ repo).data ∧
    list_directory owner repo path ref (.resp r) =
      ("❌ Directory '" ++ path ++ "' not found in " ++ owner ++ "/" ++ repo,
       [⟨"GET", listDirUrl owner repo path, refParams ref, none⟩]) ∧
    path.data <:+:
      ("❌ Directory '" ++ path ++ "' not found in " ++ owner ++ "/" ++ repo).data := by
  have hmk : make_request (.resp r) = .ok r := make_request_resp_ok_of_status r (by omega)
  refine ⟨?_, ⟨"❌ File '".data, ("' not found in " ++ owner ++ "/" ++ repo).data, by simp⟩,
    ?_, ⟨"❌ Directory '".data, ("' not found in " ++ owner ++ "/" ++ repo).data, by simp⟩⟩
  · unfold get_file_contents
    rw [show get_file_contents_core owner repo path (.resp r) =
        Except.ok ("❌ File '" ++ path ++ "' not found in " ++ owner ++ "/" ++ repo) from by
      unfold get_file_contents_core
      rw [hmk, ebind_ok]
      simp only []
      rw [if_pos h404]
      rfl]
  · unfold list_directory
    rw [show list_directory_core owner repo path (.resp r) =
        Except.ok ("❌ Directory '" ++ path ++ "' not found in " ++ owner ++ "/" ++ repo) from by
      unfold list_directory_core
      rw [hmk, ebind_ok]
      simp only []
      rw [if_pos h404]
      rfl]

/-- Witness for C5 at a concrete 404 response. -/
theorem not_found_404_spec_witness :
    get_file_contents "o" "r" "p" "" (.resp ⟨404, "", none⟩) =
      ("❌ File 'p' not found in o/r",
       [⟨"GET", contentsUrl "o" "r" "p", refParams "", none⟩]) ∧
    ("p".data <:+: ("❌ File 'p' not found in o/r").data) := by
  have h := not_found_404_spec "o" "r" "p" "" ⟨404, "", none⟩ rfl
  exact ⟨h.1, h.2.1⟩

/-- C7: on a single-file response, `get_file_contents` base64-decodes the
content field and UTF-8-decodes the bytes; on success the returned text
contains both the requested path and the decoded content, and on failure of
either decoding step the result is a formatted error text, not an
exception. -/
theorem get_file_contents_file_spec (owner repo path ref : String) (r : Response)
    (d : List (String × Json)) (hmk : ¬(r.status = 403 ∧ hasRateLimitText r))
    (h404 : r.status ≠ 404) (hst : r.status < 400)
    (hj : r.json = some (Json.obj d)) (htype : d.lookup "type" = some (Json.str "file"))
    (cs : String) (hcontent : d.lookup "content" = some (Json.str cs)) :
    (∀ s, (b64decode cs).bind utf8DecodeStr = some s →
      (get_file_contents owner repo path ref (.resp r)).1 = "📄 **" ++ path ++ "**\n\n" ++ s ∧
      path.data <:+: (get_file_contents owner repo path ref (.resp r)).1.data ∧
      s.data <:+: (get_file_contents owner repo path ref (.resp r)).1.data) ∧
    ((b64decode cs).bind utf8DecodeStr = none →
      (get_file_contents owner repo path ref (.resp r)).1 =
        "❌ Error decoding file content: " ++
          (if b64decode cs = none then "Invalid base64-encoded string"
           else "utf-8 codec cannot decode")) := by
  have hcore := get_file_contents_file_branch owner repo path r d hmk h404 hst hj htype cs
    hcontent
  constructor
  · intro s hs
    rw [hs] at hcore
    have h1 : (get_file_contents owner repo path ref (.resp r)).1 =
        "📄 **" ++ path ++ "**\n\n" ++ s := by
      unfold get_file_contents
      rw [hcore]
    refine ⟨h1, ?_, ?_⟩
    · rw [h1]
      exact ⟨"📄 **".data, ("**\n\n" ++ s).data, by simp⟩
    · rw [h1]
      exact ⟨("📄 **" ++ path ++ "**\n\n").data, [], by simp⟩
  · intro hn
    rw [hn] at hcore
    unfold get_file_contents
    rw [hcore]

/-- Witness for C7: the scenario `Welcome.md` with content `# Hello`. -/
theorem get_file_contents_file_spec_witness :
    (get_file_contents "o" "r" "Welcome.md" ""
        (.resp ⟨200, "", some (.obj [("type", .str "file"),
          ("content", .str "IyBIZWxsbw==")])⟩)).1 =
      "📄 **Welcome.md**\n\n# Hello" ∧
    "Welcome.md".data <:+:
      (get_file_contents "o" "r" "Welcome.md" ""
        (.resp ⟨200, "", some (.obj [("type", .str "file"),
          ("content", .str "IyBIZWxsbw==")])⟩)).1.data ∧
    "# Hello".data <:+:
      (get_file_contents "o" "r" "Welcome.md" ""
        (.resp ⟨200, "", some (.obj [("type", .str "file"),
          ("content", .str "IyBIZWxsbw==")])⟩)).1.data := by
  have h := (get_file_contents_file_spec "o" "r" "Welcome.md" ""
    ⟨200, "", some (.obj [("type", .str "file"), ("content", .str "IyBIZWxsbw==")])⟩
    [("type", .str "file"), ("content", .str "IyBIZWxsbw==")]
    (by decide) (by decide) (by decide) rfl rfl "IyBIZWxsbw==" rfl).1
    "# Hello" (by decide)
  exact ⟨h.1.trans (by decide), h.2.1, h.2.2⟩

theorem upsert_write_ok_inv (path : String) (shaOpt : Option Json) (o2 : RemoteOutcome)
    (s : String) (h : upsert_write path shaOpt o2 = .ok s) :
    ∃ c, s = "✅ " ++ (if shaFound shaOpt then "Updated" else "Created") ++
      " file '" ++ path ++ "' successfully!\nCommit: " ++ c := by
  unfold upsert_write at h
  cases hm : make_request o2 with
  | error e => rw [hm, ebind_error] at h; exact absurd h (by simp)
  | ok resp =>
    rw [hm, ebind_ok] at h
    cases hrs : raise_for_status resp with
    | error e => rw [hrs, ebind_error] at h; exact absurd h (by simp)
    | ok u =>
      rw [hrs, ebind_ok] at h
      cases hj : pyJson resp with
      | error e => rw [hj, ebind_error] at h; exact absurd h (by simp)
      | ok result =>
        rw [hj, ebind_ok] at h
        cases hc : pyGetItem result "commit" with
        | error e => rw [hc, ebind_error] at h; exact absurd h (by simp)
        | ok commit =>
          rw [hc, ebind_ok] at h
          cases hcs : pyGetItem commit "sha" with
          | error e => rw [hcs, ebind_error] at h; exact absurd h (by simp)
          | ok cshaJ =>
            rw [hcs, ebind_ok] at h
            cases hstr : asPyStr cshaJ with
            | error e => rw [hstr, ebind_error] at h; exact absurd h (by simp)
            | ok csha =>
              rw [hstr, ebind_ok] at h
              exact ⟨csha.take 7, (Except.ok.inj h).symm⟩

/-- C1 (amended): when the pre-check completes, the handler issues exactly
the parameterless GET followed by the PUT whose body carries a `sha` field
exactly when the pre-check was a 200 whose JSON object held a truthy `sha`
(taking that value), and any success text is labelled `Updated` exactly
when such a sha was found and `Created` otherwise, regardless of the write
response. -/
theorem upsert_sha_and_label_spec (owner repo path content message branch : String)
    (o1 o2 : RemoteOutcome) (shaOpt : Option Json)
    (h : upsert_precheck o1 = .ok shaOpt) :
    (create_or_update_file owner repo path content message branch o1 o2).2 =
      [⟨"GET", contentsUrl owner repo path, [], none⟩,
       ⟨"PUT", contentsUrl owner repo path, [],
        some (upsert_put_body content message branch shaOpt)⟩] ∧
    jlookup (upsert_put_body content message branch shaOpt) "sha" =
      (if shaFound shaOpt then shaOpt else none) ∧
    (∀ s, upsert_write path shaOpt o2 = .ok s →
      (create_or_update_file owner repo path content message branch o1 o2).1 = s ∧
      ∃ c, s = "✅ " ++ (if shaFound shaOpt then "Updated" else "Created") ++
        " file '" ++ path ++ "' successfully!\nCommit: " ++ c) := by
  refine ⟨?_, ?_, ?_⟩
  · unfold create_or_update_file
    rw [h]
  · cases shaOpt with
    | none => rfl
    | some v =>
      cases hv : jsonTruthy v with
      | false =>
        unfold upsert_put_body
        simp only []
        rw [hv, show shaFound (some v) = jsonTruthy v from rfl, hv]
        rfl
      | true =>
        unfold upsert_put_body
        simp only []
        rw [hv, show shaFound (some v) = jsonTruthy v from rfl, hv]
        rfl
  · intro s hs
    refine ⟨?_, upsert_write_ok_inv path shaOpt o2 s hs⟩
    unfold create_or_update_file
    rw [h]
    simp only []
    rw [hs]

/-- Counterexample to C1 as stated: the pre-check can return status 200
with a JSON object carrying no `sha` (here `{}`), and then the PUT body
contains no `sha` field at all even though the pre-check status was 200,
and the label is `Created`. -/
theorem upsert_sha_counterexample :
    upsert_precheck (.resp ⟨200, "", some (.obj [])⟩) = .ok none ∧
    create_or_update_file "or" "re" "p" "c" "m" "main" (.resp ⟨200, "", some (.obj [])⟩)
        (.resp ⟨201, "", some (.obj [("commit", .obj [("sha", .str "abcdef0123")])])⟩) =
      ("✅ Created file 'p' successfully!\nCommit: abcdef0",
       [⟨"GET", contentsUrl "or" "re" "p", [], none⟩,
        ⟨"PUT", contentsUrl "or" "re" "p", [],
         some (.obj [("message", .str "m"), ("content", .str "Yw=="),
                     ("branch", .str "main")])⟩]) := by
  exact ⟨rfl, rfl⟩

/-- Witness for C1 (amended) at concrete outcomes: a truthy pre-check sha
is forwarded in the PUT body and the success label is `Updated`. -/
theorem upsert_sha_and_label_spec_witness :
    (create_or_update_file "or" "re" "p" "c" "m" "main"
        (.resp ⟨200, "", some (.obj [("sha", .str "oldsha")])⟩)
        (.resp ⟨200, "", some (.obj [("commit", .obj [("sha", .str "abcdef0123")])])⟩)).2 =
      [⟨"GET", contentsUrl "or" "re" "p", [], none⟩,
       ⟨"PUT", contentsUrl "or" "re" "p", [],
        some (upsert_put_body "c" "m" "main" (some (.str "oldsha")))⟩] ∧
    jlookup (upsert_put_body "c" "m" "main" (some (.str "oldsha"))) "sha" =
      some (.str "oldsha") ∧
    (create_or_update_file "or" "re" "p" "c" "m" "main"
        (.resp ⟨200, "", some (.obj [("sha", .str "oldsha")])⟩)
        (.resp ⟨200, "", some (.obj [("commit", .obj [("sha", .str "abcdef0123")])])⟩)).1 =
      "✅ Updated file 'p' successfully!\nCommit: abcdef0" := by
  have h := upsert_sha_and_label_spec "or" "re" "p" "c" "m" "main"
    (.resp ⟨200, "", some (.obj [("sha", .str "oldsha")])⟩)
    (.resp ⟨200, "", some (.obj [("commit", .obj [("sha", .str "abcdef0123")])])⟩)
    (some (.str "oldsha")) rfl
  refine ⟨h.1, h.2.1.trans (by rfl), ?_⟩
  have h3 := h.2.2 "✅ Updated file 'p' successfully!\nCommit: abcdef0" rfl
  exact h3.1

/-- C10: for every content string, the `content` field of the PUT body of
`create_or_update_file` is its UTF-8 bytes base64-encoded, and decoding
that field (base64, then UTF-8) recovers exactly the original content. -/
theorem upsert_content_roundtrip (owner repo path content message branch : String)
    (o1 o2 : RemoteOutcome) (shaOpt : Option Json)
    (h : upsert_precheck o1 = .ok shaOpt) :
    ∃ b, (create_or_update_file owner repo path content message branch o1 o2).2.map
        Request.jsonBody = [none, some b] ∧
      jlookup b "content" = some (.str (b64encode (utf8Encode content))) ∧
      (b64decode (b64encode (utf8Encode content))).bind utf8DecodeStr = some content := by
  refine ⟨upsert_put_body content message branch shaOpt, ?_, rfl, content_roundtrip content⟩
  unfold create_or_update_file
  rw [h]
  rfl

/-- Witness for C10 at a concrete call. -/
theorem upsert_content_roundtrip_witness :
    ∃ b, (create_or_update_file "or" "re" "p" "héllo ✓" "m" "main"
        (.resp ⟨404, "", none⟩) (.netError "down")).2.map Request.jsonBody = [none, some b] ∧
      jlookup b "content" = some (.str (b64encode (utf8Encode "héllo ✓"))) ∧
      (b64decode (b64encode (utf8Encode "héllo ✓"))).bind utf8DecodeStr = some "héllo ✓" :=
  upsert_content_roundtrip "or" "re" "p" "héllo ✓" "m" "main"
    (.resp ⟨404, "", none⟩) (.netError "down") none rfl

instance : IsTotal String (fun a b => a.data ≤ b.data) :=
  ⟨fun a b => le_total a.data b.data⟩

instance : IsTrans String (fun a b => a.data ≤ b.data) :=
  ⟨fun _ _ _ hab hbc => le_trans hab hbc⟩

theorem pySorted_perm (xs : List String) : List.Perm (pySorted xs) xs :=
  List.perm_insertionSort _ xs

theorem pySorted_sorted (xs : List String) :
    List.Sorted (fun a b : String => a.data ≤ b.data) (pySorted xs) :=
  List.sorted_insertionSort _ xs

theorem listDirLoop_cons_dir (item : Json) (rest : List Json) (d f : List String)
    (ty : Json) (hty : pyGetItem item "type" = .ok ty) (hdir : jsonEqStr ty "dir" = true)
    (n : Json) (hname : pyGetItem item "name" = .ok n) :
    listDirLoop (item :: rest) d f = listDirLoop rest (d ++ ["📁 " ++ pyStr n ++ "/"]) f := by
  conv_lhs => unfold listDirLoop
  rw [hty, ebind_ok, hdir]
  simp only [if_true]
  rw [hname, ebind_ok]

theorem listDirLoop_cons_file (item : Json) (rest : List Json) (d f : List String)
    (ty : Json) (hty : pyGetItem item "type" = .ok ty) (hdir : jsonEqStr ty "dir" = false)
    (n : String) (hname : pyGetItem item "name" = .ok (.str n)) :
    listDirLoop (item :: rest) d f =
      listDirLoop rest d
        (f ++ [if pyEndsWith n ".md" then "📝 " ++ n else "📄 " ++ n]) := by
  conv_lhs => unfold listDirLoop
  rw [hty, ebind_ok, hdir]
  simp only [Bool.false_eq_true, if_false]
  rw [hname, ebind_ok]
  simp only [asPyStr]
  rw [ebind_ok]
  cases hmd : pyEndsWith n ".md" with
  | true => rw [if_pos rfl, if_pos rfl]
  | false => rw [if_neg (by decide), if_neg (by decide)]

theorem list_directory_success (owner repo path ref : String) (r : Response)
    (items : List Json) (dirs files : List String)
    (hmk : ¬(r.status = 403 ∧ hasRateLimitText r)) (h404 : r.status ≠ 404)
    (hst : r.status < 400) (hj : r.json = some (.arr items))
    (hloop : listDirLoop items [] [] = .ok (dirs, files)) :
    (list_directory owner repo path ref (.resp r)).1 = listDirRender path dirs files := by
  unfold list_directory
  rw [show list_directory_core owner repo path (.resp r) =
      Except.ok (listDirRender path dirs files) from by
    unfold list_directory_core
    rw [make_request_resp_ok r hmk, ebind_ok]
    simp only []
    rw [if_neg h404, raise_for_status_lt r hst, ebind_ok, pyJson_some r _ hj, ebind_ok]
    simp only []
    rw [hloop, ebind_ok]
    rfl]

/-- C3 (amended): `list_directory` marks `.md` files `📝` and other files
`📄` (directories `📁 name/`), and renders each sublist sorted by the full
decorated entry string — a sorted permutation in code-point order of the
collected decorated entries — rather than by bare entry name; in the file
sublist this places every non-`.md` entry (`📄`, U+1F4C4) before every
`.md` entry (`📝`, U+1F4DD). -/
theorem list_directory_render_spec (owner repo path ref : String) (r : Response)
    (items : List Json) (dirs files : List String)
    (hmk : ¬(r.status = 403 ∧ hasRateLimitText r)) (h404 : r.status ≠ 404)
    (hst : r.status < 400) (hj : r.json = some (.arr items))
    (hloop : listDirLoop items [] [] = .ok (dirs, files)) :
    (list_directory owner repo path ref (.resp r)).1 = listDirRender path dirs files ∧
    List.Perm (pySorted dirs) dirs ∧
    List.Sorted (fun a b : String => a.data ≤ b.data) (pySorted dirs) ∧
    List.Perm (pySorted files) files ∧
    List.Sorted (fun a b : String => a.data ≤ b.data) (pySorted files) ∧
    (∀ (item : Json) (rest : List Json) (d f : List String) (ty : Json) (n : String),
      pyGetItem item "type" = .ok ty → jsonEqStr ty "dir" = false →
      pyGetItem item "name" = .ok (.str n) →
      listDirLoop (item :: rest) d f =
        listDirLoop rest d
          (f ++ [if pyEndsWith n ".md" then "📝 " ++ n else "📄 " ++ n])) ∧
    (∀ (item : Json) (rest : List Json) (d f : List String) (ty n : Json),
      pyGetItem item "type" = .ok ty → jsonEqStr ty "dir" = true →
      pyGetItem item "name" = .ok n →
      listDirLoop (item :: rest) d f =
        listDirLoop rest (d ++ ["📁 " ++ pyStr n ++ "/"]) f) :=
  ⟨list_directory_success owner repo path ref r items dirs files hmk h404 hst hj hloop,
   pySorted_perm dirs, pySorted_sorted dirs, pySorted_perm files, pySorted_sorted files,
   fun item rest d f ty n hty hdir hname =>
     listDirLoop_cons_file item rest d f ty hty hdir n hname,
   fun item rest d f ty n hty hdir hname =>
     listDirLoop_cons_dir item rest d f ty hty hdir n hname⟩

/-- Counterexample to C3 as stated: with files `a.md` and `b.txt` the
rendered file sublist is `📄 b.txt` before `📝 a.md` — not the
alphabetical order of the entry names, because the sort key is the
decorated string and `📄` precedes `📝`. -/
theorem list_directory_sort_counterexample :
    (list_directory "or" "re" "n" ""
      (.resp ⟨200, "",
        some (.arr [.obj [("type", .str "file"), ("name", .str "a.md")],
                    .obj [("type", .str "file"), ("name", .str "b.txt")]])⟩)).1 =
    "📂 **Contents of /n:**\n\n**📄 Files:**\n📄 b.txt\n📝 a.md" ∧
    pySorted ["📝 a.md", "📄 b.txt"] = ["📄 b.txt", "📝 a.md"] := by
  exact ⟨by decide, by decide⟩

/-- Witness for C3 (amended) at a concrete directory response. -/
theorem list_directory_render_spec_witness :
    (list_directory "or" "re" "n" ""
      (.resp ⟨200, "",
        some (.arr [.obj [("type", .str "file"), ("name", .str "a.md")],
                    .obj [("type", .str "dir"), ("name", .str "sub")]])⟩)).1 =
      listDirRender "n" ["📁 sub/"] ["📝 a.md"] ∧
    List.Perm (pySorted ["📝 a.md"]) ["📝 a.md"] := by
  have h := list_directory_render_spec "or" "re" "n" ""
    ⟨200, "", some (.arr [.obj [("type", .str "file"), ("name", .str "a.md")],
                          .obj [("type", .str "dir"), ("name", .str "sub")]])⟩
    [.obj [("type", .str "file"), ("name", .str "a.md")],
     .obj [("type", .str "dir"), ("name", .str "sub")]]
    ["📁 sub/"] ["📝 a.md"] (by decide) (by decide) (by decide) rfl rfl
  exact ⟨h.1, h.2.2.2.1⟩

theorem searchLoop_cons_no_tm (item : Json) (rest : List Json) (fp : Json)
    (hfp : pyGetItem item "path" = .ok fp)
    (htm : pyHasKey item "text_matches" = false) :
    searchLoop (item :: rest) =
      (searchLoop rest).map (("📄 **" ++ pyStr fp ++ "**\n") :: ·) := by
  conv_lhs => unfold searchLoop
  rw [hfp, ebind_ok, htm, if_neg Bool.false_ne_true]
  cases h : searchLoop rest with
  | error e => rfl
  | ok t => rfl

theorem searchLoop_cons_tm (item : Json) (rest : List Json) (fp : Json)
    (tms : List Json) (mine : List String)
    (hfp : pyGetItem item "path" = .ok fp)
    (htm : pyHasKey item "text_matches" = true)
    (htmv : pyGetItem item "text_matches" = .ok (.arr tms))
    (hmine : searchMatchLoop (pyStr fp) (tms.take 1) = .ok mine) :
    searchLoop (item :: rest) = (searchLoop rest).map (mine ++ ·) := by
  conv_lhs => unfold searchLoop
  rw [hfp, ebind_ok, htm, if_pos rfl, htmv, ebind_ok]
  simp only [asArr]
  rw [ebind_ok, hmine, ebind_ok]
  cases h : searchLoop rest with
  | error e => rfl
  | ok t => rfl

theorem searchMatchLoop_single (fp : String) (ms : List (String × Json)) (fs : String)
    (hfrag : ms.lookup "fragment" = some (.str fs)) :
    searchMatchLoop fp [Json.obj ms] =
      .ok (if pyStrip fs ≠ "" then
        [("📄 **" ++ fp ++ "**"), ("   ```\n   " ++ pyStrip fs ++ "\n   ```\n")]
      else []) := by
  conv_lhs => unfold searchMatchLoop
  simp only []
  rw [hfrag]
  simp only [Option.getD_some, asPyStr]
  rw [ebind_ok, ebind_ok, show searchMatchLoop fp [] = .ok [] from rfl, ebind_ok]
  by_cases hps : pyStrip fs = ""
  · rw [if_neg (by simp [hps]), if_neg (by simp [hps])]
    rfl
  · rw [if_pos hps, if_pos hps]
    rfl

theorem search_code_core_eval (query : String) (st : Nat) (tx : String) (tc : Json)
    (items : List Json)
    (hmk : ¬(st = 403 ∧ hasRateLimitText ⟨st, tx,
      some (.obj [("total_count", tc), ("items", .arr items)])⟩))
    (hst : st < 400) :
    search_code_core query
        (.resp ⟨st, tx, some (.obj [("total_count", tc), ("items", .arr items)])⟩) =
      (if pyEqZero tc then Except.ok ("🔍 No results found for '" ++ query ++ "'")
       else (searchLoop (items.take 10)).map (fun lines =>
         joinNL (("🔍 **Found " ++ pyStr tc ++ " results for '" ++ query ++ "':**\n")
           :: lines))) := by
  unfold search_code_core
  rw [make_request_resp_ok _ hmk, ebind_ok,
    raise_for_status_lt ⟨st, tx, some (.obj [("total_count", tc), ("items", .arr items)])⟩ hst,
    ebind_ok,
    pyJson_some _ (.obj [("total_count", tc), ("items", .arr items)]) rfl, ebind_ok,
    pyGetItem_obj [("total_count", tc), ("items", .arr items)] "total_count" tc rfl, ebind_ok]
  by_cases htc : pyEqZero tc = true
  · rw [if_pos htc, if_pos htc]
    rfl
  · rw [if_neg htc, if_neg htc,
      pyGetItem_obj [("total_count", tc), ("items", .arr items)] "items" (.arr items) rfl,
      ebind_ok]
    simp only [asArr]
    rw [ebind_ok]
    cases h : searchLoop (items.take 10) with
    | error e => rfl
    | ok t => rfl

/-- C4 (amended): `search_code` renders at most the first 10 matched items
(the result is unchanged if the item list is truncated to 10); an item with
no `text_matches` key renders its file path alone; an item with a
`text_matches` list contributes exactly the rendering of its first match,
which is the path line plus the whitespace-stripped first fragment in a
quoted block when the stripped fragment is non-empty, and nothing at all
otherwise — in particular an item with an empty `text_matches` list
renders nothing, not its path. -/
theorem search_code_render_spec (owner repo query : String) (st : Nat) (tx : String)
    (tc : Json) (items : List Json)
    (hmk : ¬(st = 403 ∧ hasRateLimitText
      ⟨st, tx, some (.obj [("total_count", tc), ("items", .arr items)])⟩))
    (hmk' : ¬(st = 403 ∧ hasRateLimitText
      ⟨st, tx, some (.obj [("total_count", tc), ("items", .arr (items.take 10))])⟩))
    (hst : st < 400) :
    search_code owner repo query
        (.resp ⟨st, tx, some (.obj [("total_count", tc), ("items", .arr items)])⟩) =
      search_code owner repo query
        (.resp ⟨st, tx, some (.obj [("total_count", tc),
          ("items", .arr (items.take 10))])⟩) ∧
    (∀ (item : Json) (rest : List Json) (fp : Json),
      pyGetItem item "path" = .ok fp → pyHasKey item "text_matches" = false →
      searchLoop (item :: rest) =
        (searchLoop rest).map (("📄 **" ++ pyStr fp ++ "**\n") :: ·)) ∧
    (∀ (item : Json) (rest : List Json) (fp : Json) (tms : List Json) (mine : List String),
      pyGetItem item "path" = .ok fp → pyHasKey item "text_matches" = true →
      pyGetItem item "text_matches" = .ok (.arr tms) →
      searchMatchLoop (pyStr fp) (tms.take 1) = .ok mine →
      searchLoop (item :: rest) = (searchLoop rest).map (mine ++ ·)) ∧
    (∀ (fp : String) (ms : List (String × Json)) (fs : String),
      ms.lookup "fragment" = some (.str fs) →
      searchMatchLoop fp [Json.obj ms] =
        .ok (if pyStrip fs ≠ "" then
          [("📄 **" ++ fp ++ "**"), ("   ```\n   " ++ pyStrip fs ++ "\n   ```\n")]
        else [])) ∧
    (∀ (item : Json) (rest : List Json) (fp : Json),
      pyGetItem item "path" = .ok fp → pyHasKey item "text_matches" = true →
      pyGetItem item "text_matches" = .ok (.arr []) →
      searchLoop (item :: rest) = searchLoop rest) := by
  refine ⟨?_, searchLoop_cons_no_tm, searchLoop_cons_tm, searchMatchLoop_single, ?_⟩
  · unfold search_code
    rw [search_code_core_eval query st tx tc items hmk hst,
      search_code_core_eval query st tx tc (items.take 10) hmk' hst,
      List.take_take, min_self]
  · intro item rest fp hfp htm htmv
    rw [searchLoop_cons_tm item rest fp [] [] hfp htm htmv rfl]
    cases h : searchLoop rest with
    | error e => rfl
    | ok t => rfl

/-- Counterexample to C4 as stated: an item that carries a `text_matches`
key with no fragments renders nothing — not its file path — so the output
is the header alone and the path `zzfile` appears nowhere in it. -/
theorem search_code_render_counterexample :
    (search_code "or" "re" "q"
      (.resp ⟨200, "", some (.obj [("total_count", .num 1),
        ("items", .arr [.obj [("path", .str "zzfile"),
          ("text_matches", .arr [])]])])⟩)).1 =
      "🔍 **Found 1 results for 'q':**\n" ∧
    ¬("zzfile".data <:+: ("🔍 **Found 1 results for 'q':**\n").data) := by
  exact ⟨by decide, by decide⟩

/-- Witness for C4 (amended) at concrete inputs. -/
theorem search_code_render_spec_witness :
    search_code "or" "re" "q"
        (.resp ⟨200, "", some (.obj [("total_count", .num 1), ("items", .arr [])])⟩) =
      search_code "or" "re" "q"
        (.resp ⟨200, "", some (.obj [("total_count", .num 1),
          ("items", .arr (([] : List Json).take 10))])⟩) ∧
    searchLoop [Json.obj [("path", .str "p")]] =
      (searchLoop []).map (("📄 **" ++ pyStr (.str "p") ++ "**\n") :: ·) := by
  have h := search_code_render_spec "or" "re" "q" 200 "" (.num 1) []
    (by decide) (by decide) (by decide)
  exact ⟨h.1, h.2.1 (Json.obj [("path", .str "p")]) [] (.str "p") rfl rfl⟩

end ObsidianMCP
